import Mathlib

/-
Verification of the force-term kernel of a pedestrian social-force simulator
(`pysocialforce/forces.py`).

The embedding below translates the Python source into Lean over exact real
arithmetic:

  * an agent-state row `(x, y, vx, vy, gx, gy, tau)` becomes the structure
    `Agent`; the full state matrix is a `List Agent`;
  * an `N x 2` force matrix becomes a total function `ℕ → Vec2` (rows outside
    `0 .. N-1` are never written, so they stay `0`, matching `np.zeros`);
  * NumPy fancy-index accumulation `forces[group, :] += vecs` becomes
    `scatterAdd` (sequential row additions; for groups without duplicate
    indices this coincides with NumPy's buffered update);
  * `np.arccos` applied outside `[-1, 1]` yields NaN; this is modelled by the
    `Option`-valued `arccosChecked` (`none` = NaN).  The Python comparison
    `nan > vision_angle` is `False`, which is mirrored where the value is
    consumed;
  * the geometry helpers of `stateutils` and the potential collaborators are
    not part of the translated source file; each of those is modelled from the
    spec and carries a doc comment saying so.
-/

namespace PySF

/-! Basic geometric data -/

/-- A 2-d vector, used for positions, velocities and forces. -/
abbrev Vec2 : Type := ℝ × ℝ

/-- Euclidean norm of a 2-d vector (`np.linalg.norm` of a row). -/
noncomputable def vnorm (v : Vec2) : ℝ := Real.sqrt (v.1 ^ 2 + v.2 ^ 2)

/-- Dot product of two 2-d vectors (`np.dot` of two rows). -/
def dot (a b : Vec2) : ℝ := a.1 * b.1 + a.2 * b.2

/-- Modelled from the spec: `stateutils.normalize` on one row — "vector
normalization (vector array → (unit vectors, norms))" (spec 6), with the
degenerate zero-length case guarded to the zero vector instead of a NaN
(spec 7: "zero-length displacement normalized … must be handled by explicit
clamping/guarding, not by propagating NaN"). -/
noncomputable def normalizeVec (v : Vec2) : Vec2 :=
  if vnorm v = 0 then 0 else (vnorm v)⁻¹ • v

/-- Modelled from the spec: `stateutils.group_center` — "group centroid
(member sub-state → 2-vector)" (spec 6), taken as the simple arithmetic mean
of the member positions ("computes the centroid of member positions",
spec 4.5). -/
noncomputable def groupCenter (ps : List Vec2) : Vec2 :=
  ((ps.length : ℝ))⁻¹ • ps.foldl (· + ·) 0

/-- Modelled from the spec: `stateutils.vec_diff` — "pairwise displacement
(positions → array of pairwise differences)" (spec 6); entry `(i, j)` holds
`ps[i] - ps[j]`, and the outer list iterates over `i`. -/
def vecDiff (ps : List Vec2) : List (List Vec2) :=
  ps.map (fun p => ps.map (fun q => p - q))

/-- `np.degrees`: radians to degrees. -/
noncomputable def degrees (x : ℝ) : ℝ := x * 180 / Real.pi

/-- `np.radians`: degrees to radians. -/
noncomputable def radians (x : ℝ) : ℝ := x * Real.pi / 180

/-- `np.arccos` with its IEEE domain behaviour made explicit: an argument
outside `[-1, 1]` produces NaN, modelled as `none`. -/
noncomputable def arccosChecked (x : ℝ) : Option ℝ :=
  if x < -1 ∨ 1 < x then none else some (Real.arccos x)

/-! Agent state -/

/-- One row of the agent-state matrix: columns `0:2` position, `2:4`
velocity, `4:6` goal position, `6` relaxation time `tau`. -/
structure Agent where
  px : ℝ
  py : ℝ
  vx : ℝ
  vy : ℝ
  gx : ℝ
  gy : ℝ
  tau : ℝ

instance : Inhabited Agent := ⟨⟨0, 0, 0, 0, 0, 0, 0⟩⟩

/-- Columns `0:2` of a state row. -/
def Agent.pos (a : Agent) : Vec2 := (a.px, a.py)

/-- Columns `2:4` of a state row. -/
def Agent.vel (a : Agent) : Vec2 := (a.vx, a.vy)

/-- Columns `4:6` of a state row. -/
def Agent.goal (a : Agent) : Vec2 := (a.gx, a.gy)

/-- `self.state[group][:, 0:2]`: the member positions selected by a group's
index list. -/
def memberPositions (state : List Agent) (g : List ℕ) : List Vec2 :=
  g.map (fun i => (state.getD i default).pos)

/-- Modelled from the spec: `stateutils.desired_directions` — "the unit
vector from each agent's current position toward its goal position"
(spec 3, DesiredDirection cache), zero-guarded like `normalizeVec`. -/
noncomputable def desired_directions (state : List Agent) : List Vec2 :=
  state.map (fun a => normalizeVec (a.goal - a.pos))

/-- Modelled from the spec: the obstacle representation is opaque to this
core — "an opaque obstacle representation (points or segments) consumed only
by the obstacle-potential collaborator" (spec 3); modelled as a list of
obstacle points, only ever passed through. -/
def Space : Type := List Vec2

/-! Force matrices and NumPy-style scatter accumulation -/

/-- `np.zeros((N, 2))` as a total row function. -/
def zeroF : ℕ → Vec2 := fun _ => 0

/-- Add `v` into row `i` of a force matrix. -/
def addAt (f : ℕ → Vec2) (i : ℕ) (v : Vec2) : ℕ → Vec2 :=
  fun j => if j = i then f j + v else f j

/-- `forces[idxs, :] += vs`: add `vs[k]` into row `idxs[k]` for each `k`
(sequentially; equal to NumPy's buffered fancy-index update whenever `idxs`
has no duplicates). -/
def scatterAdd : (ℕ → Vec2) → List ℕ → List Vec2 → ℕ → Vec2
  | f, i :: is, v :: vs => scatterAdd (addAt f i v) is vs
  | f, _, _ => f

/-! The Force base class: config binding and per-tick state -/

/-- A config sub-mapping (`config_dict[name]`): string keys to numbers. -/
abbrev SubMap : Type := List (String × ℝ)

/-- The global config mapping: per-force sub-mappings plus the one top-level
`"time_step"` entry read by `load_config`. -/
structure ConfigDict where
  subs : List (String × SubMap)
  time_step : Option ℝ

/-- The mutable fields of the Python `Force` base class.  `factor` and
`time_step` are `Option ℝ` because `load_config` stores the result of
`dict.get`, which can be `None`. -/
structure ForceState where
  name : String
  state : Option (List Agent)
  space : Option Space
  groups : Option (List (List ℕ))
  goal_vector : Option (List Vec2)
  initial_speeds : Option (List ℝ)
  factor : Option ℝ
  time_step : Option ℝ
  config : Option SubMap

/-- `Force.__init__`: defaults `factor = 1.0`, `time_step = 0.4`,
`config = {}`, everything else `None`. -/
noncomputable def initForce (n : String) : ForceState :=
  { name := n, state := none, space := none, groups := none,
    goal_vector := none, initial_speeds := none,
    factor := some 1, time_step := some (2 / 5), config := some [] }

/-- `Force.load_config`: `self.config = config_dict.get(self.name)`; then
`if self.config:` (false for `None` and for an empty dict) sets
`self.factor = self.config.get("factor")` and
`self.time_step = config_dict.get("time_step")` — the latter read from the
global mapping, not from the sub-mapping. -/
def load_config (f : ForceState) (cfg : ConfigDict) : ForceState :=
  match cfg.subs.lookup f.name with
  | none => { f with config := none }
  | some sub =>
      if sub.isEmpty then { f with config := some sub }
      else { f with config := some sub,
                    factor := sub.lookup "factor",
                    time_step := cfg.time_step }

/-- `Force.set_state`: stores `state`, `space`, `groups`, recomputes the
desired-direction cache `self.goal_vector`, and overwrites
`self.initial_speeds` only when the argument is not `None`. -/
noncomputable def set_state (f : ForceState) (state : List Agent)
    (groups : Option (List (List ℕ))) (space : Option Space)
    (initial_speeds : Option (List ℝ)) : ForceState :=
  { f with state := some state, space := space, groups := groups,
           goal_vector := some (desired_directions state),
           initial_speeds := match initial_speeds with
                             | some v => some v
                             | none => f.initial_speeds }

/-! GoalAttractiveForce -/

/-- `GoalAttractiveForce.get_force`:
`F0 = 1.0 / tau * (np.expand_dims(self.initial_speeds, -1) * self.goal_vector - vel)`
and `return F0 * self.factor`, row by row.  `initial_speeds` and
`goal_vector` are the cached fields. -/
noncomputable def goalAttractiveForce (state : List Agent)
    (initial_speeds : List ℝ) (goal_vector : List Vec2) (factor : ℝ) :
    List Vec2 :=
  (state.zip (initial_speeds.zip goal_vector)).map
    (fun q => factor • ((1 / q.1.tau) • (q.2.1 • q.2.2 - q.1.vel)))

/-! SpaceRepulsiveForce -/

/-- `SpaceRepulsiveForce.get_force`.  When `self.space is None` the pairwise
array is `np.zeros((N, 0, 2))`; otherwise it is `-1.0 *` the obstacle
potential gradient.  The gradient itself lives in the potential collaborator
(not part of this source file) and is taken as an explicit function
argument.  The result is `np.sum(F_aB, axis=1) * self.factor`. -/
noncomputable def spaceRepulsiveForce (state : List Agent)
    (space : Option Space)
    (gradRaB : List Agent → Space → Option ℝ → Option ℝ → List (List Vec2))
    (u0 r : Option ℝ) (factor : ℝ) : List Vec2 :=
  let F_aB : List (List Vec2) :=
    match space with
    | none => List.replicate state.length []
    | some s => (gradRaB state s u0 r).map (fun row => row.map (fun v => (-1 : ℝ) • v))
  F_aB.map (fun row => factor • row.foldl (· + ·) 0)

/-! GroupCoherenceForce (paper version) -/

/-- One member row of `GroupCoherenceForce.get_force`'s per-group update:
with `com` the group centroid and `p` the member position,
`force_vec = com - p`, `vectors, norms = normalize(force_vec)`, and
`vectors[norms < threshold] = [0, 0]` with
`threshold = (len(group) - 1) / 2`. -/
noncomputable def coherenceMemberVec (state : List Agent) (g : List ℕ)
    (p : Vec2) : Vec2 :=
  if vnorm (groupCenter (memberPositions state g) - p) < ((g.length : ℝ) - 1) / 2
  then 0
  else normalizeVec (groupCenter (memberPositions state g) - p)

/-- The row vectors added for one group by `GroupCoherenceForce.get_force`. -/
noncomputable def coherenceGroupVecs (state : List Agent) (g : List ℕ) :
    List Vec2 :=
  (memberPositions state g).map (coherenceMemberVec state g)

/-- `GroupCoherenceForce.get_force`: starts from `np.zeros((N, 2))`, adds
the per-group vectors at the group's row indices, and returns
`forces * self.factor`. -/
noncomputable def groupCoherenceForce (state : List Agent)
    (groups : Option (List (List ℕ))) (factor : ℝ) : ℕ → Vec2 :=
  let base :=
    match groups with
    | none => zeroF
    | some gs =>
        gs.foldl (fun acc g => scatterAdd acc g (coherenceGroupVecs state g)) zeroF
  fun i => factor • base i

/-! GroupCoherenceForceAlt (pedsim_ros version) -/

/-- One member row of `GroupCoherenceForceAlt.get_force`'s per-group
update: the raw displacement toward the centroid scaled by
`softened_factor = (np.tanh(norms - threshold) + 1) / 2`, where `norms` are
the row norms (`stateutils.speeds`, modelled from the spec's "speed/norm
extraction"). -/
noncomputable def altMemberVec (state : List Agent) (g : List ℕ)
    (p : Vec2) : Vec2 :=
  ((Real.tanh (vnorm (groupCenter (memberPositions state g) - p) -
      ((g.length : ℝ) - 1) / 2) + 1) / 2) •
    (groupCenter (memberPositions state g) - p)

/-- The row vectors added for one group by
`GroupCoherenceForceAlt.get_force`. -/
noncomputable def altGroupVecs (state : List Agent) (g : List ℕ) :
    List Vec2 :=
  (memberPositions state g).map (altMemberVec state g)

/-- `GroupCoherenceForceAlt.get_force`. -/
noncomputable def groupCoherenceForceAlt (state : List Agent)
    (groups : Option (List (List ℕ))) (factor : ℝ) : ℕ → Vec2 :=
  let base :=
    match groups with
    | none => zeroF
    | some gs =>
        gs.foldl (fun acc g => scatterAdd acc g (altGroupVecs state g)) zeroF
  fun i => factor • base i

/-! GroupRepulsiveForce -/

/-- `GroupRepulsiveForce.get_force`.  The threshold default mirrors
`self.config.get("threshold") or 0.5` (Python `or`, so both a missing key
and a value `0.0` fall back to `0.5`).  Inside the loop the source computes
`vectors, norms = normalize(m)`, `vectors = np.nan_to_num(vectors)` and
`vectors[norms > threshold] = [0, 0]`, but then accumulates the raw `m`
(`forces[group, :] += m`); the three intermediate results are dead, and are
kept here as unused bindings to match the source.  (`nan_to_num` is the
identity under the zero-guarded modelled `normalizeVec`.) -/
noncomputable def groupRepulsiveForce (state : List Agent)
    (thresholdCfg : Option ℝ) (groups : Option (List (List ℕ)))
    (factor : ℝ) : ℕ → Vec2 :=
  let threshold : ℝ :=
    match thresholdCfg with
    | none => 1 / 2
    | some v => if v = 0 then 1 / 2 else v
  let base :=
    match groups with
    | none => zeroF
    | some gs =>
        gs.foldl (fun acc (g : List ℕ) =>
          (vecDiff (memberPositions state g)).foldl (fun acc2 (m : List Vec2) =>
            let vectors := m.map normalizeVec
            let norms := m.map vnorm
            let gated := (vectors.zip norms).map
              (fun (p : Vec2 × ℝ) => if p.2 > threshold then (0 : Vec2) else p.1)
            scatterAdd acc2 g m) acc) zeroF
  fun i => factor • base i

/-- Modelled from the spec: the simplified reference behaviour of
`GroupRepulsiveForce` — "the reference behavior accumulates the *unfiltered*
raw displacement regardless of the threshold check" (spec 4.7): per group,
every pairwise displacement row is accumulated as is; no normalization, no
threshold gating, no threshold parameter at all. -/
noncomputable def groupRepulsiveSimple (state : List Agent)
    (groups : Option (List (List ℕ))) (factor : ℝ) : ℕ → Vec2 :=
  let base :=
    match groups with
    | none => zeroF
    | some gs =>
        gs.foldl (fun acc (g : List ℕ) =>
          (vecDiff (memberPositions state g)).foldl (fun acc2 (m : List Vec2) =>
            scatterAdd acc2 g m) acc) zeroF
  fun i => factor • base i

/-! GroupGazeForce -/

/-- `vision_angle = self.config.get("fov_phi") or 100.0` (Python `or`:
missing key and `0.0` both give `100.0`). -/
noncomputable def visionAngleOf (fovPhi : Option ℝ) : ℝ :=
  match fovPhi with
  | none => 100
  | some v => if v = 0 then 100 else v

/-- One member's rotation scalar in `GroupGazeForce.get_force`:
`a = np.degrees(np.arccos(np.dot(d, c)))` followed by
`a - vision_angle if a > vision_angle else 0.0`, then `np.radians`.
When the dot product lies outside `[-1, 1]`, `np.arccos` yields NaN
(modelled by `none`); `np.degrees` keeps NaN, the comparison
`nan > vision_angle` is `False`, so the rotation is `0.0`. -/
noncomputable def gazeRotation (va : ℝ) (d c : Vec2) : ℝ :=
  match arccosChecked (dot d c) with
  | none => 0
  | some t => if degrees t > va then radians (degrees t - va) else 0

/-- One member row of `GroupGazeForce.get_force`'s per-group update: for
member `k`, the centroid of the *other* members' positions relative to `k`
(`relative_com`, via `member_pos[np.arange(group_size) != k]`), its
normalized direction, the rotation scalar, and finally
`force = -rotation * member_direction` where `member_direction` is the
cached `goal_vector` row of the member. -/
noncomputable def gazeMemberVec (state : List Agent) (gvec : List Vec2)
    (va : ℝ) (g : List ℕ) (k : ℕ) : Vec2 :=
  (-(gazeRotation va (gvec.getD (g.getD k 0) 0)
      (normalizeVec (groupCenter ((memberPositions state g).eraseIdx k) -
        (memberPositions state g).getD k 0)))) •
    (gvec.getD (g.getD k 0) 0)

/-- The row vectors added for one group (of size at least 2) by
`GroupGazeForce.get_force`. -/
noncomputable def gazeGroupVecs (state : List Agent) (gvec : List Vec2)
    (va : ℝ) (g : List ℕ) : List Vec2 :=
  (List.range g.length).map (gazeMemberVec state gvec va g)

/-- One loop iteration of `GroupGazeForce.get_force`: groups of size `<= 1`
are skipped (`continue`), larger groups scatter their member rows. -/
noncomputable def gazeStep (state : List Agent) (gvec : List Vec2) (va : ℝ)
    (acc : ℕ → Vec2) (g : List ℕ) : ℕ → Vec2 :=
  if g.length ≤ 1 then acc
  else scatterAdd acc g (gazeGroupVecs state gvec va g)

/-- `GroupGazeForce.get_force`: groups of size `<= 1` are skipped
(`continue`); `member_directions` are the cached `self.goal_vector` rows. -/
noncomputable def groupGazeForce (state : List Agent) (gvec : List Vec2)
    (fovPhi : Option ℝ) (groups : Option (List (List ℕ))) (factor : ℝ) :
    ℕ → Vec2 :=
  let va := visionAngleOf fovPhi
  let base :=
    match groups with
    | none => zeroF
    | some gs => gs.foldl (gazeStep state gvec va) zeroF
  fun i => factor • base i

/-- The angle computation of `GroupGazeForce.get_force` in isolation:
`np.degrees(np.arccos(np.dot(d, c)))`, with NaN as `none`.  The dot product
is passed to `arccos` as is — there is no clamping step in the source. -/
noncomputable def comAngleDeg (d c : Vec2) : Option ℝ :=
  (arccosChecked (dot d c)).map degrees

/-- Modelled from the spec: the clamped angle computation the spec requires
("the dot product may … slightly exceed ±1 and must be clamped before
`arccos` to avoid domain failure", spec 4.8): the dot product is clamped
into `[-1, 1]` before `arccos`, so the result is always a number. -/
noncomputable def comAngleDegClamped (d c : Vec2) : ℝ :=
  degrees (Real.arccos (max (-1) (min 1 (dot d c))))

/-- Membership of a row index in no group of an optional group list. -/
def notInAnyGroup (groups : Option (List (List ℕ))) (i : ℕ) : Prop :=
  ∀ gs, groups = some gs → ∀ g ∈ gs, i ∉ g

/-! Concrete inputs used in witnesses and counterexamples -/

/-- An agent standing still at `(x, y)` with zero velocity, zero goal and
zero relaxation time. -/
def agentAt (x y : ℝ) : Agent := ⟨x, y, 0, 0, 0, 0, 0⟩

/-- Three agents at `(0,0)`, `(3/2,0)`, `(3/2,0)`: their centroid is
`(1,0)`, so agent `0` sits at distance exactly `1 = (3 - 1)/2` from it. -/
noncomputable def state3 : List Agent :=
  [agentAt 0 0, agentAt (3 / 2) 0, agentAt (3 / 2) 0]

/-- Two agents at `(0,0)` and `(1,0)`. -/
def state2 : List Agent := [agentAt 0 0, agentAt 1 0]

/-- Two agents, both at the origin. -/
def state2same : List Agent := [agentAt 0 0, agentAt 0 0]

/-! Helper lemmas -/

theorem vnorm_eval (a b c : ℝ) (hc : 0 ≤ c) (h : a ^ 2 + b ^ 2 = c ^ 2) :
    vnorm (a, b) = c := by
  show Real.sqrt (a ^ 2 + b ^ 2) = c
  rw [h, Real.sqrt_sq hc]

theorem vnorm_zero : vnorm (0 : Vec2) = 0 := by
  show Real.sqrt ((0 : ℝ) ^ 2 + (0 : ℝ) ^ 2) = 0
  norm_num

theorem vnorm_nonneg (v : Vec2) : 0 ≤ vnorm v := Real.sqrt_nonneg _

/-- Cauchy–Schwarz for the planar dot product. -/
theorem abs_dot_le (a b : Vec2) : |dot a b| ≤ vnorm a * vnorm b := by
  have h1 : dot a b ^ 2 ≤ (a.1 ^ 2 + a.2 ^ 2) * (b.1 ^ 2 + b.2 ^ 2) := by
    have hd : dot a b = a.1 * b.1 + a.2 * b.2 := rfl
    rw [hd]
    nlinarith [sq_nonneg (a.1 * b.2 - a.2 * b.1)]
  calc |dot a b| = Real.sqrt (dot a b ^ 2) := (Real.sqrt_sq_eq_abs _).symm
    _ ≤ Real.sqrt ((a.1 ^ 2 + a.2 ^ 2) * (b.1 ^ 2 + b.2 ^ 2)) :=
        Real.sqrt_le_sqrt h1
    _ = vnorm a * vnorm b := by
        rw [vnorm, vnorm, ← Real.sqrt_mul (by positivity)]

/-- A dot product against a normalized vector is bounded by the other
factor's norm. -/
theorem abs_dot_normalizeVec_le (d x : Vec2) :
    |dot d (normalizeVec x)| ≤ vnorm d := by
  rw [normalizeVec]
  split_ifs with h
  · have : dot d (0 : Vec2) = 0 := by
      show d.1 * (0 : Vec2).1 + d.2 * (0 : Vec2).2 = 0
      simp
    rw [this]
    simpa using vnorm_nonneg d
  · have hx : 0 < vnorm x := lt_of_le_of_ne (vnorm_nonneg x) (Ne.symm h)
    have hdot : dot d ((vnorm x)⁻¹ • x) = (vnorm x)⁻¹ * dot d x := by
      show d.1 * ((vnorm x)⁻¹ • x).1 + d.2 * ((vnorm x)⁻¹ • x).2 = _
      have h1 : ((vnorm x)⁻¹ • x).1 = (vnorm x)⁻¹ * x.1 := rfl
      have h2 : ((vnorm x)⁻¹ • x).2 = (vnorm x)⁻¹ * x.2 := rfl
      rw [h1, h2, dot]; ring
    rw [hdot, abs_mul, abs_inv, abs_of_pos hx]
    calc (vnorm x)⁻¹ * |dot d x| ≤ (vnorm x)⁻¹ * (vnorm d * vnorm x) :=
          mul_le_mul_of_nonneg_left (abs_dot_le d x) (by positivity)
      _ = vnorm d := by field_simp

theorem arccosChecked_eq_some (x : ℝ) (h1 : -1 ≤ x) (h2 : x ≤ 1) :
    arccosChecked x = some (Real.arccos x) := by
  rw [arccosChecked, if_neg]
  push_neg
  constructor <;> linarith

/-- On an in-domain dot product the gaze rotation is the plain
`arccos`-based excess formula. -/
theorem gazeRotation_of_abs_le (va : ℝ) (d c : Vec2)
    (h1 : -1 ≤ dot d c) (h2 : dot d c ≤ 1) :
    gazeRotation va d c =
      if degrees (Real.arccos (dot d c)) > va
      then radians (degrees (Real.arccos (dot d c)) - va) else 0 := by
  rw [gazeRotation, arccosChecked_eq_some _ h1 h2]

theorem tanh_lt_one (x : ℝ) : Real.tanh x < 1 := by
  rw [Real.tanh_eq_sinh_div_cosh, div_lt_one (Real.cosh_pos x)]
  exact Real.sinh_lt_cosh x

theorem neg_one_lt_tanh (x : ℝ) : -1 < Real.tanh x := by
  rw [Real.tanh_eq_sinh_div_cosh, lt_div_iff₀ (Real.cosh_pos x)]
  nlinarith [Real.cosh_add_sinh x, Real.exp_pos x]

theorem getD_map_of_lt {α β : Type} (f : α → β) (l : List α) (k : ℕ)
    (h : k < l.length) (d : β) (d' : α) :
    (l.map f).getD k d = f (l.getD k d') := by
  rw [List.getD_eq_getElem _ _ (by simpa using h), List.getD_eq_getElem _ _ h,
    List.getElem_map]

theorem scatterAdd_apply_notMem (f : ℕ → Vec2) (is : List ℕ)
    (vs : List Vec2) (i : ℕ) (h : i ∉ is) : scatterAdd f is vs i = f i := by
  induction is generalizing f vs with
  | nil => cases vs <;> rfl
  | cons j js ih =>
    cases vs with
    | nil => rfl
    | cons v vs' =>
      have hij : i ≠ j := fun e => h (e ▸ List.mem_cons_self j js)
      have hjs : i ∉ js := fun m => h (List.mem_cons_of_mem j m)
      show scatterAdd (addAt f j v) js vs' i = f i
      rw [ih _ _ hjs, addAt, if_neg hij]

theorem scatterAdd_apply_getD (f : ℕ → Vec2) (is : List ℕ)
    (vs : List Vec2) (k : ℕ) (hk : k < is.length)
    (hlen : vs.length = is.length) (hnd : is.Nodup) :
    scatterAdd f is vs (is.getD k 0) = f (is.getD k 0) + vs.getD k 0 := by
  induction is generalizing f vs k with
  | nil => simp at hk
  | cons j js ih =>
    cases vs with
    | nil => simp at hlen
    | cons v vs' =>
      obtain ⟨hj, hnd'⟩ := List.nodup_cons.mp hnd
      cases k with
      | zero =>
        show scatterAdd (addAt f j v) js vs' ((j :: js).getD 0 0) = _
        rw [List.getD_cons_zero, List.getD_cons_zero,
          scatterAdd_apply_notMem _ _ _ _ hj, addAt, if_pos rfl]
      | succ k' =>
        have hk' : k' < js.length := by simpa using hk
        have hlen' : vs'.length = js.length := by simpa using hlen
        show scatterAdd (addAt f j v) js vs' ((j :: js).getD (k' + 1) 0) = _
        rw [List.getD_cons_succ, List.getD_cons_succ,
          ih (addAt f j v) vs' k' hk' hlen' hnd']
        have hmem : js.getD k' 0 ∈ js := by
          rw [List.getD_eq_getElem _ _ hk']
          exact List.getElem_mem hk'
        have hne : js.getD k' 0 ≠ j := fun e => hj (e ▸ hmem)
        rw [addAt, if_neg hne]

theorem foldl_apply_eq {β : Type} (step : (ℕ → Vec2) → β → ℕ → Vec2)
    (l : List β) (f0 : ℕ → Vec2) (i : ℕ)
    (h : ∀ acc b, b ∈ l → step acc b i = acc i) :
    (l.foldl step f0) i = f0 i := by
  induction l generalizing f0 with
  | nil => rfl
  | cons b bs ih =>
    show (bs.foldl step (step f0 b)) i = f0 i
    rw [ih (step f0 b) (fun acc c hc => h acc c (List.mem_cons_of_mem b hc)),
      h f0 b (List.mem_cons_self b bs)]

theorem coherenceGroupVecs_length (state : List Agent) (g : List ℕ) :
    (coherenceGroupVecs state g).length = g.length := by
  simp [coherenceGroupVecs, memberPositions]

theorem altGroupVecs_length (state : List Agent) (g : List ℕ) :
    (altGroupVecs state g).length = g.length := by
  simp [altGroupVecs, memberPositions]

theorem gazeGroupVecs_length (state : List Agent) (gvec : List Vec2)
    (va : ℝ) (g : List ℕ) :
    (gazeGroupVecs state gvec va g).length = g.length := by
  simp [gazeGroupVecs]

/-- Row extraction for `groupCoherenceForce` run on a single group. -/
theorem coherence_single_row (state : List Agent) (g : List ℕ) (factor : ℝ)
    (k : ℕ) (hk : k < g.length) (hnd : g.Nodup) :
    groupCoherenceForce state (some [g]) factor (g.getD k 0) =
      factor • (coherenceGroupVecs state g).getD k 0 := by
  show factor •
      (scatterAdd zeroF g (coherenceGroupVecs state g)) (g.getD k 0) = _
  rw [scatterAdd_apply_getD zeroF g _ k hk (coherenceGroupVecs_length state g) hnd]
  show factor • ((0 : Vec2) + _) = _
  rw [zero_add]

/-- Row extraction for `groupCoherenceForceAlt` run on a single group. -/
theorem alt_single_row (state : List Agent) (g : List ℕ) (factor : ℝ)
    (k : ℕ) (hk : k < g.length) (hnd : g.Nodup) :
    groupCoherenceForceAlt state (some [g]) factor (g.getD k 0) =
      factor • (altGroupVecs state g).getD k 0 := by
  show factor • (scatterAdd zeroF g (altGroupVecs state g)) (g.getD k 0) = _
  rw [scatterAdd_apply_getD zeroF g _ k hk (altGroupVecs_length state g) hnd]
  show factor • ((0 : Vec2) + _) = _
  rw [zero_add]

/-- Row extraction for `groupGazeForce` run on a single group of size at
least 2. -/
theorem gaze_single_row (state : List Agent) (gvec : List Vec2)
    (fov : Option ℝ) (g : List ℕ) (factor : ℝ) (k : ℕ)
    (hk : k < g.length) (h2 : 2 ≤ g.length) (hnd : g.Nodup) :
    groupGazeForce state gvec fov (some [g]) factor (g.getD k 0) =
      factor • gazeMemberVec state gvec (visionAngleOf fov) g k := by
  have hng : ¬(g.length ≤ 1) := by omega
  show factor •
      ((if g.length ≤ 1 then zeroF
        else scatterAdd zeroF g (gazeGroupVecs state gvec (visionAngleOf fov) g))
        (g.getD k 0)) = _
  rw [if_neg hng,
    scatterAdd_apply_getD zeroF g _ k hk (gazeGroupVecs_length state gvec _ g) hnd]
  have hval : (gazeGroupVecs state gvec (visionAngleOf fov) g).getD k 0 =
      gazeMemberVec state gvec (visionAngleOf fov) g k := by
    rw [gazeGroupVecs, getD_map_of_lt _ _ k (by simpa using hk) _ 0,
      List.getD_eq_getElem _ _ (by simpa using hk), List.getElem_range]
  rw [hval]
  show factor • ((0 : Vec2) + _) = _
  rw [zero_add]

/-! Claims -/

/-- C1: for every stored state with `N` agents and a cached
`initial_speeds` vector, `GoalAttractiveForce.get_force` returns the `N x 2`
matrix whose row `i` equals
`factor • (1/tau_i) • (v0_i • e_i - velocity_i)`, where `tau_i` is read from
the state, `v0_i` is the cached initial speed and `e_i` the cached desired
direction. -/
theorem C1_goalAttractiveForce_rows (state : List Agent) (speeds : List ℝ)
    (gvec : List Vec2) (factor : ℝ) (i : ℕ) (hi : i < state.length)
    (hs : speeds.length = state.length) (hg : gvec.length = state.length) :
    (goalAttractiveForce state speeds gvec factor).length = state.length ∧
    (goalAttractiveForce state speeds gvec factor).getD i 0 =
      factor • ((1 / (state.getD i default).tau) •
        ((speeds.getD i 0) • (gvec.getD i 0) - (state.getD i default).vel)) := by
  have hlen : (goalAttractiveForce state speeds gvec factor).length = state.length := by
    simp [goalAttractiveForce, hs, hg]
  refine ⟨hlen, ?_⟩
  have hi2 : i < (goalAttractiveForce state speeds gvec factor).length := by
    omega
  rw [List.getD_eq_getElem _ _ hi2]
  simp only [goalAttractiveForce, List.getElem_map, List.getElem_zip]
  rw [List.getD_eq_getElem state default hi,
    List.getD_eq_getElem speeds 0 (by omega),
    List.getD_eq_getElem gvec 0 (by omega)]

/-- C1 witness: the end-to-end scenario — 2 agents, `tau = 1/2`, desired
speed `1`, zero velocity, factor `1`; each row of the force is `2 • e_i`. -/
theorem C1_witness :
    (goalAttractiveForce
        [⟨0, 0, 0, 0, 0, 0, 1 / 2⟩, ⟨5, 0, 0, 0, 0, 0, 1 / 2⟩]
        [1, 1] [((3 / 5 : ℝ), (4 / 5 : ℝ)), ((0 : ℝ), (1 : ℝ))] 1).getD 0 0 =
      (2 : ℝ) • ((3 / 5 : ℝ), (4 / 5 : ℝ)) ∧
    (goalAttractiveForce
        [⟨0, 0, 0, 0, 0, 0, 1 / 2⟩, ⟨5, 0, 0, 0, 0, 0, 1 / 2⟩]
        [1, 1] [((3 / 5 : ℝ), (4 / 5 : ℝ)), ((0 : ℝ), (1 : ℝ))] 1).getD 1 0 =
      (2 : ℝ) • ((0 : ℝ), (1 : ℝ)) := by
  constructor
  · have h := (C1_goalAttractiveForce_rows
      [⟨0, 0, 0, 0, 0, 0, 1 / 2⟩, ⟨5, 0, 0, 0, 0, 0, 1 / 2⟩]
      [1, 1] [((3 / 5 : ℝ), (4 / 5 : ℝ)), ((0 : ℝ), (1 : ℝ))] 1 0
      (by norm_num) (by norm_num) (by norm_num)).2
    rw [h]
    show (1 : ℝ) • ((1 / (1 / 2 : ℝ)) •
      ((1 : ℝ) • ((3 / 5 : ℝ), (4 / 5 : ℝ)) - ((0 : ℝ), (0 : ℝ)))) = _
    rw [Prod.smul_mk, Prod.smul_mk, Prod.mk_sub_mk, Prod.smul_mk, Prod.smul_mk]
    norm_num
  · have h := (C1_goalAttractiveForce_rows
      [⟨0, 0, 0, 0, 0, 0, 1 / 2⟩, ⟨5, 0, 0, 0, 0, 0, 1 / 2⟩]
      [1, 1] [((3 / 5 : ℝ), (4 / 5 : ℝ)), ((0 : ℝ), (1 : ℝ))] 1 1
      (by norm_num) (by norm_num) (by norm_num)).2
    rw [h]
    show (1 : ℝ) • ((1 / (1 / 2 : ℝ)) •
      ((1 : ℝ) • ((0 : ℝ), (1 : ℝ)) - ((0 : ℝ), (0 : ℝ)))) = _
    rw [Prod.smul_mk, Prod.smul_mk, Prod.mk_sub_mk, Prod.smul_mk, Prod.smul_mk]
    norm_num

/-- C3: `GroupRepulsiveForce.get_force` equals factor times the per-group
accumulation of the raw pairwise displacement vectors — the simplified
embedding with normalization and threshold gating removed — and two runs
differing only in the configured threshold produce identical results: the
distance gating is dead code. -/
theorem C3_groupRepulsiveForce_threshold_noop (state : List Agent)
    (groups : Option (List (List ℕ))) (t1 t2 : Option ℝ) (factor : ℝ) :
    groupRepulsiveForce state t1 groups factor =
      groupRepulsiveSimple state groups factor ∧
    groupRepulsiveForce state t1 groups factor =
      groupRepulsiveForce state t2 groups factor :=
  ⟨rfl, rfl⟩

/-- C4: `load_config` on a config dict holding a (nonempty) sub-mapping
under the force's name with a `"factor"` entry sets `factor` from the
sub-mapping and `time_step` from the *global* dict's `"time_step"` entry —
even when the sub-mapping defines its own `"time_step"` key, the global
value wins; when the sub-mapping is absent, `factor` and `time_step` retain
their prior (default) values. -/
theorem C4_load_config_spec (f : ForceState) (cfg : ConfigDict) :
    (∀ sub v, cfg.subs.lookup f.name = some sub →
      sub.lookup "factor" = some v →
      (load_config f cfg).factor = some v ∧
      (load_config f cfg).time_step = cfg.time_step) ∧
    (cfg.subs.lookup f.name = none →
      (load_config f cfg).factor = f.factor ∧
      (load_config f cfg).time_step = f.time_step) := by
  constructor
  · intro sub v hsub hfac
    have hne : sub.isEmpty = false := by
      cases sub with
      | nil => simp [List.lookup] at hfac
      | cons a l => rfl
    rw [load_config, hsub]
    simp [hne, hfac]
  · intro hnone
    rw [load_config, hnone]
    exact ⟨rfl, rfl⟩

/-- C4 witness: a sub-mapping with both `"factor"` and its own
`"time_step" = 9` and a global `"time_step" = 7` yields `factor = 3` and
`time_step = 7` (global wins); an absent sub-mapping retains the defaults
`1.0` and `0.4`. -/
theorem C4_witness :
    ((load_config (initForce "goal_attractive_force")
        ⟨[("goal_attractive_force", [("factor", 3), ("time_step", 9)])],
          some 7⟩).factor = some 3 ∧
     (load_config (initForce "goal_attractive_force")
        ⟨[("goal_attractive_force", [("factor", 3), ("time_step", 9)])],
          some 7⟩).time_step = some 7) ∧
    ((load_config (initForce "ped_repulsive_force")
        ⟨[("goal_attractive_force", [("factor", 3), ("time_step", 9)])],
          some 7⟩).factor = some 1 ∧
     (load_config (initForce "ped_repulsive_force")
        ⟨[("goal_attractive_force", [("factor", 3), ("time_step", 9)])],
          some 7⟩).time_step = some (2 / 5)) := by
  constructor
  · have h := (C4_load_config_spec (initForce "goal_attractive_force")
      ⟨[("goal_attractive_force", [("factor", 3), ("time_step", 9)])],
        some 7⟩).1 [("factor", 3), ("time_step", 9)] 3 rfl rfl
    exact ⟨h.1, h.2⟩
  · have h := (C4_load_config_spec (initForce "ped_repulsive_force")
      ⟨[("goal_attractive_force", [("factor", 3), ("time_step", 9)])],
        some 7⟩).2 rfl
    exact ⟨h.1.trans rfl, h.2.trans rfl⟩

/-- C5: with no obstacle space supplied, `SpaceRepulsiveForce.get_force`
returns the exact `N x 2` zero matrix, for every state, factor and obstacle
potential configuration. -/
theorem C5_spaceRepulsiveForce_none (state : List Agent)
    (grad : List Agent → Space → Option ℝ → Option ℝ → List (List Vec2))
    (u0 r : Option ℝ) (factor : ℝ) :
    spaceRepulsiveForce state none grad u0 r factor =
      List.replicate state.length (0 : Vec2) := by
  show (List.replicate state.length ([] : List Vec2)).map
      (fun row => factor • row.foldl (· + ·) 0) = _
  rw [List.map_replicate]
  show List.replicate state.length (factor • (0 : Vec2)) = _
  rw [smul_zero]

/-- C8: `set_state` replaces the `state`, `groups` and `space` fields,
recomputes the desired-direction cache from the new state, updates
`initial_speeds` iff the argument is non-null (otherwise the prior cached
value is retained), and leaves `name`, `factor`, `time_step` and `config`
untouched. -/
theorem C8_set_state_spec (f : ForceState) (st : List Agent)
    (gr : Option (List (List ℕ))) (sp : Option Space)
    (isp : Option (List ℝ)) :
    (set_state f st gr sp isp).state = some st ∧
    (set_state f st gr sp isp).groups = gr ∧
    (set_state f st gr sp isp).space = sp ∧
    (set_state f st gr sp isp).goal_vector = some (desired_directions st) ∧
    (isp = none → (set_state f st gr sp isp).initial_speeds = f.initial_speeds) ∧
    (∀ v, isp = some v → (set_state f st gr sp isp).initial_speeds = some v) ∧
    (set_state f st gr sp isp).name = f.name ∧
    (set_state f st gr sp isp).factor = f.factor ∧
    (set_state f st gr sp isp).time_step = f.time_step ∧
    (set_state f st gr sp isp).config = f.config := by
  cases isp <;> simp [set_state]

/-- C8 witness: omitting `initial_speeds` keeps the prior (null) cache;
supplying one overwrites it. -/
theorem C8_witness :
    (set_state (initForce "goal_attractive_force") [] none none none).initial_speeds
      = none ∧
    (set_state (initForce "goal_attractive_force") [] none none
        (some [2])).initial_speeds = some [2] := by
  constructor
  · have h := (C8_set_state_spec (initForce "goal_attractive_force")
      [] none none none).2.2.2.2.1 rfl
    exact h.trans rfl
  · exact (C8_set_state_spec (initForce "goal_attractive_force")
      [] none none (some [2])).2.2.2.2.2.1 [2] rfl

/-- C2 (amended): in `GroupCoherenceForce.get_force`, a member whose
distance from the group centroid is *strictly below*
`threshold = (group_size - 1)/2` contributes exactly zero, and any other
member — including one at distance exactly `threshold`, since the source
zeroes only rows with `norms < threshold` — contributes `factor` times the
unit vector from its position toward the centroid. -/
theorem C2_groupCoherenceForce_rows (state : List Agent) (g : List ℕ)
    (factor : ℝ) (k : ℕ) (hk : k < g.length) (hnd : g.Nodup)
    (hb : ∀ j ∈ g, j < state.length) :
    groupCoherenceForce state (some [g]) factor (g.getD k 0) =
      factor •
        (if vnorm (groupCenter (memberPositions state g) -
              (state.getD (g.getD k 0) default).pos) < ((g.length : ℝ) - 1) / 2
         then 0
         else normalizeVec (groupCenter (memberPositions state g) -
              (state.getD (g.getD k 0) default).pos)) := by
  rw [coherence_single_row state g factor k hk hnd]
  have hmk : k < (memberPositions state g).length := by
    simpa [memberPositions] using hk
  have hpos : (memberPositions state g).getD k (0 : Vec2) =
      (state.getD (g.getD k 0) default).pos := by
    show (g.map (fun i => (state.getD i default).pos)).getD k (0 : Vec2) = _
    rw [getD_map_of_lt _ _ k hk _ 0]
  have hv : (coherenceGroupVecs state g).getD k (0 : Vec2) =
      coherenceMemberVec state g ((state.getD (g.getD k 0) default).pos) := by
    show ((memberPositions state g).map (coherenceMemberVec state g)).getD k
      (0 : Vec2) = _
    rw [getD_map_of_lt _ _ k hmk _ (0 : Vec2), hpos]
  rw [hv]
  rfl

/-- C2 counterexample: in `state3` with the single group `[0, 1, 2]`
(`threshold = (3 - 1)/2 = 1`), member `0` sits at distance exactly `1` from
the centroid `(1, 0)`, yet its force row is the unit vector `(1, 0)`, not
zero — the claim's "a member at distance exactly equal to threshold
contributes exactly zero" fails on the code. -/
theorem C2_counterexample :
    vnorm (groupCenter (memberPositions state3 [0, 1, 2]) -
        (state3.getD 0 default).pos) = ((([0, 1, 2] : List ℕ).length : ℝ) - 1) / 2 ∧
    groupCoherenceForce state3 (some [[0, 1, 2]]) 1 0 = ((1 : ℝ), (0 : ℝ)) ∧
    ((1 : ℝ), (0 : ℝ)) ≠ ((0 : ℝ), (0 : ℝ)) := by
  have hmp : memberPositions state3 [0, 1, 2] =
      [((0 : ℝ), (0 : ℝ)), ((3 / 2 : ℝ), (0 : ℝ)), ((3 / 2 : ℝ), (0 : ℝ))] := rfl
  have hcom : groupCenter (memberPositions state3 [0, 1, 2]) = ((1 : ℝ), (0 : ℝ)) := by
    rw [hmp]
    simp only [groupCenter, List.foldl_cons, List.foldl_nil, List.length_cons,
      List.length_nil]
    norm_num [Prod.mk_add_mk, Prod.smul_mk, smul_eq_mul, Prod.mk.injEq,
      Prod.fst_zero, Prod.snd_zero]
  have hp0 : (state3.getD 0 default).pos = ((0 : ℝ), (0 : ℝ)) := rfl
  have hsub : ((1 : ℝ), (0 : ℝ)) - ((0 : ℝ), (0 : ℝ)) = ((1 : ℝ), (0 : ℝ)) := by
    rw [Prod.mk_sub_mk]; norm_num
  have hdist : vnorm (groupCenter (memberPositions state3 [0, 1, 2]) -
      (state3.getD 0 default).pos) = 1 := by
    rw [hcom, hp0, hsub]
    exact vnorm_eval 1 0 1 (by norm_num) (by norm_num)
  refine ⟨?_, ?_, ?_⟩
  · rw [hdist]; norm_num
  · have h := coherence_single_row state3 [0, 1, 2] 1 0 (by norm_num) (by decide)
    have h0 : ([0, 1, 2] : List ℕ).getD 0 0 = 0 := rfl
    rw [h0] at h
    rw [h]
    have hv : (coherenceGroupVecs state3 [0, 1, 2]).getD 0 (0 : Vec2) =
        coherenceMemberVec state3 [0, 1, 2] ((0 : ℝ), (0 : ℝ)) := by
      show ((memberPositions state3 [0, 1, 2]).map
        (coherenceMemberVec state3 [0, 1, 2])).getD 0 (0 : Vec2) = _
      rw [getD_map_of_lt _ _ 0 (by rw [hmp]; norm_num) _ (0 : Vec2)]
      rw [hmp]
      rfl
    rw [hv]
    simp only [coherenceMemberVec]
    rw [hcom, hsub]
    have hth : ((([0, 1, 2] : List ℕ).length : ℝ) - 1) / 2 = 1 := by norm_num
    rw [vnorm_eval 1 0 1 (by norm_num) (by norm_num), hth, if_neg (by norm_num)]
    rw [normalizeVec, if_neg (by rw [vnorm_eval 1 0 1 (by norm_num) (by norm_num)]; norm_num)]
    rw [vnorm_eval 1 0 1 (by norm_num) (by norm_num)]
    norm_num [Prod.smul_mk, smul_eq_mul, Prod.mk.injEq]
  · simp [Prod.mk.injEq]

/-- C2 witness (for the amended claim): two agents at the same point — each
member's distance to the centroid is `0 < 1/2 = threshold`, so its force
row is exactly zero. -/
theorem C2_witness :
    groupCoherenceForce state2same (some [[0, 1]]) 1 0 = (0 : Vec2) := by
  have h := C2_groupCoherenceForce_rows state2same [0, 1] 1 0 (by norm_num)
    (by decide) (by decide)
  have h0 : ([0, 1] : List ℕ).getD 0 0 = 0 := rfl
  rw [h0] at h
  rw [h]
  have hmp : memberPositions state2same [0, 1] =
      [((0 : ℝ), (0 : ℝ)), ((0 : ℝ), (0 : ℝ))] := rfl
  have hcom : groupCenter (memberPositions state2same [0, 1]) =
      ((0 : ℝ), (0 : ℝ)) := by
    rw [hmp]
    simp only [groupCenter, List.foldl_cons, List.foldl_nil, List.length_cons,
      List.length_nil]
    norm_num [Prod.mk_add_mk, Prod.smul_mk, smul_eq_mul, Prod.mk.injEq,
      Prod.fst_zero, Prod.snd_zero]
  have hp0 : (state2same.getD 0 default).pos = ((0 : ℝ), (0 : ℝ)) := rfl
  rw [hcom, hp0]
  have hsub : ((0 : ℝ), (0 : ℝ)) - ((0 : ℝ), (0 : ℝ)) = ((0 : ℝ), (0 : ℝ)) := by
    rw [Prod.mk_sub_mk]; norm_num
  rw [hsub, vnorm_eval 0 0 0 le_rfl (by norm_num)]
  rw [if_pos (by norm_num)]
  simp

/-- C9: in `GroupCoherenceForceAlt.get_force`, each member's contribution
is `factor` times the raw (un-normalized) displacement toward the group
centroid scaled by the gate `g = (tanh(norm - threshold) + 1)/2` with
`threshold = (group_size - 1)/2`, and the gate lies strictly between 0
and 1. -/
theorem C9_groupCoherenceForceAlt_rows (state : List Agent) (g : List ℕ)
    (factor : ℝ) (k : ℕ) (hk : k < g.length) (hnd : g.Nodup)
    (hb : ∀ j ∈ g, j < state.length) :
    groupCoherenceForceAlt state (some [g]) factor (g.getD k 0) =
      factor •
        (((Real.tanh (vnorm (groupCenter (memberPositions state g) -
              (state.getD (g.getD k 0) default).pos) -
            ((g.length : ℝ) - 1) / 2) + 1) / 2) •
          (groupCenter (memberPositions state g) -
            (state.getD (g.getD k 0) default).pos)) ∧
    0 < (Real.tanh (vnorm (groupCenter (memberPositions state g) -
          (state.getD (g.getD k 0) default).pos) -
        ((g.length : ℝ) - 1) / 2) + 1) / 2 ∧
    (Real.tanh (vnorm (groupCenter (memberPositions state g) -
          (state.getD (g.getD k 0) default).pos) -
        ((g.length : ℝ) - 1) / 2) + 1) / 2 < 1 := by
  refine ⟨?_, ?_, ?_⟩
  · rw [alt_single_row state g factor k hk hnd]
    have hmk : k < (memberPositions state g).length := by
      simpa [memberPositions] using hk
    have hpos : (memberPositions state g).getD k (0 : Vec2) =
        (state.getD (g.getD k 0) default).pos := by
      show (g.map (fun i => (state.getD i default).pos)).getD k (0 : Vec2) = _
      rw [getD_map_of_lt _ _ k hk _ 0]
    have hv : (altGroupVecs state g).getD k (0 : Vec2) =
        altMemberVec state g ((state.getD (g.getD k 0) default).pos) := by
      show ((memberPositions state g).map (altMemberVec state g)).getD k
        (0 : Vec2) = _
      rw [getD_map_of_lt _ _ k hmk _ (0 : Vec2), hpos]
    rw [hv]
    rfl
  · have := neg_one_lt_tanh (vnorm (groupCenter (memberPositions state g) -
      (state.getD (g.getD k 0) default).pos) - ((g.length : ℝ) - 1) / 2)
    linarith
  · have := tanh_lt_one (vnorm (groupCenter (memberPositions state g) -
      (state.getD (g.getD k 0) default).pos) - ((g.length : ℝ) - 1) / 2)
    linarith

/-- C9 witness: two agents at `(0,0)` and `(1,0)` in one group — for
member `0` the displacement toward the centroid is `(1/2, 0)`, its norm
equals the threshold `1/2`, the gate is `(tanh 0 + 1)/2 = 1/2`, and the
force row is `(1/4, 0)`. -/
theorem C9_witness :
    groupCoherenceForceAlt state2 (some [[0, 1]]) 1 0 = ((1 / 4 : ℝ), (0 : ℝ)) := by
  have h := (C9_groupCoherenceForceAlt_rows state2 [0, 1] 1 0 (by norm_num)
    (by decide) (by decide)).1
  have h0 : ([0, 1] : List ℕ).getD 0 0 = 0 := rfl
  rw [h0] at h
  rw [h]
  have hmp : memberPositions state2 [0, 1] =
      [((0 : ℝ), (0 : ℝ)), ((1 : ℝ), (0 : ℝ))] := rfl
  have hcom : groupCenter (memberPositions state2 [0, 1]) =
      ((1 / 2 : ℝ), (0 : ℝ)) := by
    rw [hmp]
    simp only [groupCenter, List.foldl_cons, List.foldl_nil, List.length_cons,
      List.length_nil]
    norm_num [Prod.mk_add_mk, Prod.smul_mk, smul_eq_mul, Prod.mk.injEq,
      Prod.fst_zero, Prod.snd_zero]
  have hp0 : (state2.getD 0 default).pos = ((0 : ℝ), (0 : ℝ)) := rfl
  have hsub : ((1 / 2 : ℝ), (0 : ℝ)) - ((0 : ℝ), (0 : ℝ)) =
      ((1 / 2 : ℝ), (0 : ℝ)) := by
    rw [Prod.mk_sub_mk]; norm_num
  rw [hcom, hp0, hsub, vnorm_eval (1 / 2) 0 (1 / 2) (by norm_num) (by norm_num)]
  have hth : (((([0, 1] : List ℕ)).length : ℝ) - 1) / 2 = 1 / 2 := by norm_num
  rw [hth]
  norm_num [Real.tanh_zero, Prod.smul_mk, smul_eq_mul, Prod.mk.injEq]

/-- C10: in all four group-based variants, an agent row index appearing in
no group receives exactly the zero vector, for every state, group list
(including `None`) and configuration. -/
theorem C10_ungrouped_rows_zero (state : List Agent) (gvec : List Vec2)
    (tCfg fovCfg : Option ℝ) (groups : Option (List (List ℕ))) (factor : ℝ)
    (i : ℕ) (h : notInAnyGroup groups i) :
    groupCoherenceForce state groups factor i = 0 ∧
    groupCoherenceForceAlt state groups factor i = 0 ∧
    groupRepulsiveForce state tCfg groups factor i = 0 ∧
    groupGazeForce state gvec fovCfg groups factor i = 0 := by
  cases groups with
  | none =>
    refine ⟨?_, ?_, ?_, ?_⟩ <;>
      · show factor • zeroF i = 0
        simp [zeroF]
  | some gs =>
    have hgs : ∀ g ∈ gs, i ∉ g := h gs rfl
    refine ⟨?_, ?_, ?_, ?_⟩
    · show factor • (gs.foldl
        (fun acc g => scatterAdd acc g (coherenceGroupVecs state g)) zeroF) i = 0
      rw [foldl_apply_eq _ gs zeroF i
        (fun acc g hg => scatterAdd_apply_notMem acc g _ i (hgs g hg))]
      simp [zeroF]
    · show factor • (gs.foldl
        (fun acc g => scatterAdd acc g (altGroupVecs state g)) zeroF) i = 0
      rw [foldl_apply_eq _ gs zeroF i
        (fun acc g hg => scatterAdd_apply_notMem acc g _ i (hgs g hg))]
      simp [zeroF]
    · show factor • (gs.foldl
        (fun acc g => (vecDiff (memberPositions state g)).foldl
          (fun acc2 m => scatterAdd acc2 g m) acc) zeroF) i = 0
      rw [foldl_apply_eq _ gs zeroF i (fun acc g hg =>
        foldl_apply_eq _ (vecDiff (memberPositions state g)) acc i
          (fun acc2 m _ => scatterAdd_apply_notMem acc2 g m i (hgs g hg)))]
      simp [zeroF]
    · show factor • (gs.foldl
        (fun acc g => if g.length ≤ 1 then acc
          else scatterAdd acc g (gazeGroupVecs state gvec (visionAngleOf fovCfg) g))
        zeroF) i = 0
      rw [foldl_apply_eq _ gs zeroF i (fun acc g hg => by
        by_cases hle : g.length ≤ 1
        · rw [if_pos hle]
        · rw [if_neg hle]
          exact scatterAdd_apply_notMem acc g _ i (hgs g hg))]
      simp [zeroF]

/-- C10 witness: with three agents and the single group `[0, 1]`, the
ungrouped row `2` is zero in all four variants. -/
theorem C10_witness :
    groupCoherenceForce state3 (some [[0, 1]]) 1 2 = 0 ∧
    groupCoherenceForceAlt state3 (some [[0, 1]]) 1 2 = 0 ∧
    groupRepulsiveForce state3 none (some [[0, 1]]) 1 2 = 0 ∧
    groupGazeForce state3 [] none (some [[0, 1]]) 1 2 = 0 := by
  have hn : notInAnyGroup (some [[0, 1]]) 2 := by
    intro gs hgs
    rw [Option.some_inj] at hgs
    subst hgs
    decide
  exact C10_ungrouped_rows_zero state3 [] none none (some [[0, 1]]) 1 2 hn

/-- C6: in `GroupGazeForce.get_force`, a group of size at most 1 is skipped
and contributes the zero vector to all rows (removing it from the group
list leaves the result unchanged); and for a member of a larger group with
a unit desired direction, the contribution is zero when the angle (in
degrees) between the desired direction and the unit direction toward the
other members' centroid does not exceed `vision_angle`, and otherwise is
`-(angle - vision_angle, in radians)` times the desired direction — a
vector anti-parallel to it. -/
theorem C6_groupGazeForce_spec :
    (∀ (state : List Agent) (gvec : List Vec2) (fov : Option ℝ)
        (gs1 gs2 : List (List ℕ)) (g : List ℕ) (factor : ℝ),
        g.length ≤ 1 →
        groupGazeForce state gvec fov (some (gs1 ++ g :: gs2)) factor =
          groupGazeForce state gvec fov (some (gs1 ++ gs2)) factor) ∧
    (∀ (state : List Agent) (gvec : List Vec2) (fov : Option ℝ)
        (g : List ℕ) (factor : ℝ) (k : ℕ),
        k < g.length → 2 ≤ g.length → g.Nodup →
        (∀ j ∈ g, j < state.length ∧ j < gvec.length) →
        vnorm (gvec.getD (g.getD k 0) 0) = 1 →
        groupGazeForce state gvec fov (some [g]) factor (g.getD k 0) =
          factor •
            (if degrees (Real.arccos (dot (gvec.getD (g.getD k 0) 0)
                  (normalizeVec
                    (groupCenter ((memberPositions state g).eraseIdx k) -
                      (memberPositions state g).getD k 0)))) >
                visionAngleOf fov
             then (-(radians
                  (degrees (Real.arccos (dot (gvec.getD (g.getD k 0) 0)
                      (normalizeVec
                        (groupCenter ((memberPositions state g).eraseIdx k) -
                          (memberPositions state g).getD k 0)))) -
                    visionAngleOf fov))) • (gvec.getD (g.getD k 0) 0)
             else 0)) := by
  constructor
  · intro state gvec fov gs1 gs2 g factor hle
    funext i
    show factor •
        (List.foldl (gazeStep state gvec (visionAngleOf fov)) zeroF
          (gs1 ++ g :: gs2)) i =
      factor •
        (List.foldl (gazeStep state gvec (visionAngleOf fov)) zeroF
          (gs1 ++ gs2)) i
    rw [List.foldl_append, List.foldl_append, List.foldl_cons]
    have hstep : gazeStep state gvec (visionAngleOf fov)
        (List.foldl (gazeStep state gvec (visionAngleOf fov)) zeroF gs1) g =
        List.foldl (gazeStep state gvec (visionAngleOf fov)) zeroF gs1 := by
      rw [gazeStep, if_pos hle]
    rw [hstep]
  · intro state gvec fov g factor k hk h2 hnd hb hunit
    rw [gaze_single_row state gvec fov g factor k hk h2 hnd]
    congr 1
    have hdc : |dot (gvec.getD (g.getD k 0) 0)
        (normalizeVec (groupCenter ((memberPositions state g).eraseIdx k) -
          (memberPositions state g).getD k 0))| ≤ 1 := by
      have h := abs_dot_normalizeVec_le (gvec.getD (g.getD k 0) 0)
        (groupCenter ((memberPositions state g).eraseIdx k) -
          (memberPositions state g).getD k 0)
      rw [hunit] at h
      exact h
    have h1 := abs_le.mp hdc
    rw [gazeMemberVec, gazeRotation_of_abs_le _ _ _ h1.1 h1.2]
    split_ifs with hcond
    · rfl
    · rw [neg_zero, zero_smul]

/-- C6 witness: two agents at `(0,0)` and `(1,0)`; agent `0`'s cached
desired direction `(-1, 0)` points directly away from agent `1`, so the
deviation angle is `180° > 100°` and the force row is
`radians(80°) = 4π/9` times `-(-1, 0)`, i.e. `(4π/9, 0)`. -/
theorem C6_witness :
    groupGazeForce state2 [((-1 : ℝ), (0 : ℝ)), ((0 : ℝ), (1 : ℝ))] none
      (some [[0, 1]]) 1 0 = ((4 * Real.pi / 9 : ℝ), (0 : ℝ)) := by
  have hunit : vnorm (([((-1 : ℝ), (0 : ℝ)), ((0 : ℝ), (1 : ℝ))] :
      List Vec2).getD (([0, 1] : List ℕ).getD 0 0) 0) = 1 := by
    show vnorm ((-1 : ℝ), (0 : ℝ)) = 1
    exact vnorm_eval (-1) 0 1 (by norm_num) (by norm_num)
  have h := (C6_groupGazeForce_spec).2 state2
    [((-1 : ℝ), (0 : ℝ)), ((0 : ℝ), (1 : ℝ))] none [0, 1] 1 0
    (by norm_num) (by norm_num) (by decide) (by decide) hunit
  have h0 : ([0, 1] : List ℕ).getD 0 0 = 0 := rfl
  rw [h0] at h
  rw [h]
  have hdval : ([((-1 : ℝ), (0 : ℝ)), ((0 : ℝ), (1 : ℝ))] : List Vec2).getD 0
      (0 : Vec2) = ((-1 : ℝ), (0 : ℝ)) := rfl
  have hmp : memberPositions state2 [0, 1] =
      [((0 : ℝ), (0 : ℝ)), ((1 : ℝ), (0 : ℝ))] := rfl
  have her : (memberPositions state2 [0, 1]).eraseIdx 0 =
      [((1 : ℝ), (0 : ℝ))] := by rw [hmp]; rfl
  have hgc : groupCenter [((1 : ℝ), (0 : ℝ))] = ((1 : ℝ), (0 : ℝ)) := by
    simp only [groupCenter, List.foldl_cons, List.foldl_nil, List.length_cons,
      List.length_nil]
    norm_num [Prod.mk_add_mk, Prod.smul_mk, smul_eq_mul, Prod.mk.injEq,
      Prod.fst_zero, Prod.snd_zero]
  have hp0 : (memberPositions state2 [0, 1]).getD 0 (0 : Vec2) =
      ((0 : ℝ), (0 : ℝ)) := by rw [hmp]; rfl
  have hsub : ((1 : ℝ), (0 : ℝ)) - ((0 : ℝ), (0 : ℝ)) = ((1 : ℝ), (0 : ℝ)) := by
    rw [Prod.mk_sub_mk]; norm_num
  have hnv : normalizeVec ((1 : ℝ), (0 : ℝ)) = ((1 : ℝ), (0 : ℝ)) := by
    rw [normalizeVec,
      if_neg (by rw [vnorm_eval 1 0 1 (by norm_num) (by norm_num)]; norm_num),
      vnorm_eval 1 0 1 (by norm_num) (by norm_num)]
    norm_num [Prod.smul_mk, smul_eq_mul, Prod.mk.injEq]
  have hdot : dot ((-1 : ℝ), (0 : ℝ)) ((1 : ℝ), (0 : ℝ)) = -1 := by
    show (-1 : ℝ) * 1 + 0 * 0 = -1
    norm_num
  have hdeg : degrees Real.pi = 180 := by
    show Real.pi * 180 / Real.pi = 180
    field_simp
  have hva : visionAngleOf none = 100 := rfl
  rw [hdval, her, hgc, hp0, hsub, hnv, hdot, Real.arccos_neg_one, hdeg, hva]
  rw [if_pos (by norm_num)]
  have hrad : radians ((180 : ℝ) - 100) = 4 * Real.pi / 9 := by
    show ((180 : ℝ) - 100) * Real.pi / 180 = 4 * Real.pi / 9
    ring
  rw [hrad, one_smul, Prod.smul_mk, smul_eq_mul, smul_eq_mul]
  norm_num

/-- C7 (code bug): `GroupGazeForce.get_force` passes the raw dot product to
`np.arccos` with no clamping: a dot product slightly above `1` (as
floating-point rounding can produce from two normalized vectors) makes the
angle computation hit the `arccos` domain error and yields NaN
(`comAngleDeg = none`), whereas the clamped computation the spec requires
stays defined; the NaN does not reach the returned matrix only because the
comparison `nan > vision_angle` is false, so the rotation and the member's
force row collapse to zero. -/
theorem C7_no_clamp :
    1 < dot ((1 : ℝ), (0 : ℝ)) ((1 + 1 / 1000000 : ℝ), (0 : ℝ)) ∧
    comAngleDeg ((1 : ℝ), (0 : ℝ)) ((1 + 1 / 1000000 : ℝ), (0 : ℝ)) = none ∧
    comAngleDegClamped ((1 : ℝ), (0 : ℝ)) ((1 + 1 / 1000000 : ℝ), (0 : ℝ)) = 0 ∧
    gazeRotation 100 ((1 : ℝ), (0 : ℝ)) ((1 + 1 / 1000000 : ℝ), (0 : ℝ)) = 0 := by
  have hdot : dot ((1 : ℝ), (0 : ℝ)) ((1 + 1 / 1000000 : ℝ), (0 : ℝ)) =
      1 + 1 / 1000000 := by
    show (1 : ℝ) * (1 + 1 / 1000000) + 0 * 0 = 1 + 1 / 1000000
    norm_num
  have hgt : (1 : ℝ) < 1 + 1 / 1000000 := by norm_num
  have hnone : arccosChecked (dot ((1 : ℝ), (0 : ℝ))
      ((1 + 1 / 1000000 : ℝ), (0 : ℝ))) = none := by
    rw [hdot, arccosChecked, if_pos (Or.inr hgt)]
  refine ⟨?_, ?_, ?_, ?_⟩
  · rw [hdot]; exact hgt
  · rw [comAngleDeg, hnone]
    rfl
  · rw [comAngleDegClamped, hdot,
      min_eq_left (le_of_lt hgt),
      max_eq_right (by norm_num : (-1 : ℝ) ≤ 1),
      Real.arccos_one]
    show (0 : ℝ) * 180 / Real.pi = 0
    simp
  · rw [gazeRotation, hnone]

end PySF
